import Mathlib

/-!
Formal model of the arta query/scripting language core, shallowly embedding
the Rust sources (src/parser/ast.rs, src/script/validator.rs,
src/parser/grammar.rs, src/context/mod.rs, src/engine/executor.rs,
src/engine/actions/files.rs, src/life/mod.rs, src/container/manager.rs,
src/script/runner.rs) and proving properties of the embedded functions.

Modelling conventions:
- Rust u64/usize are modelled as Nat (no u64 arithmetic overflows in the
  modelled code paths; the one u64-relevant operation, the saturating
  f64-to-u64 cast in parse_size_value, is modelled explicitly).
- Rust f64 literals stored in the AST are modelled as exact rationals; the
  places where IEEE-754 double rounding is observable (parse_size_value)
  use an explicit dyadic-rounding model (see the F64 section).
- Rust HashMap is modelled as an association list (List (String x ...)):
  lookup finds the first matching key; the modelled code never inserts a
  duplicate key without checking contains_key first.
- Rust Vec push/pop stacks (the context folder stack) are modelled as Lean
  lists with the top of the stack at the head.
- Wall-clock timestamps (chrono Utc::now) carry no information used by any
  modelled function and are omitted from history entries and containers.
-/

set_option maxHeartbeats 1000000

namespace Arta

/-! ### AST data model, from src/parser/ast.rs -/

/-- Comparison operators (ast.rs CompareOp). -/
inductive CompareOp where
  | equal
  | notEqual
  | greaterThan
  | greaterThanOrEqual
  | lessThan
  | lessThanOrEqual
  | like
  | contains
  | matches
  deriving DecidableEq, Repr

/-- Logical operators (ast.rs LogicalOp). -/
inductive LogicalOp where
  | and
  | or
  deriving DecidableEq, Repr

/-- Literal values (ast.rs Value). The f64 payload of Number is modelled as
the exact rational value of the double. -/
inductive Value where
  | string (s : String)
  | number (n : ℚ)
  | size (bytes : ℕ)
  | boolean (b : Bool)
  | identifier (name : String)
  deriving DecidableEq, Repr

/-- Single comparison condition (ast.rs Condition). -/
structure Condition where
  field : String
  operator : CompareOp
  value : Value
  deriving DecidableEq, Repr

/-- Condition expression with an optional right-recursive logical link
(ast.rs ConditionExpr). -/
inductive ConditionExpr where
  | mk (condition : Condition) (next : Option (LogicalOp × ConditionExpr))

/-- Projection of the condition component of a ConditionExpr. -/
def ConditionExpr.condition : ConditionExpr → Condition
  | .mk c _ => c

/-- WHERE clause: an ordered list of condition expressions (ast.rs
WhereClause). -/
structure WhereClause where
  conditions : List ConditionExpr

/-- Query targets (ast.rs QueryTarget). -/
inductive QueryTarget where
  | cpu
  | memory
  | disk
  | network
  | system
  | battery
  | process
  | files
  | content
  deriving DecidableEq, Repr

/-- Field selection (ast.rs FieldList). -/
inductive FieldList where
  | all
  | fields (names : List String)

/-- Query command (ast.rs QueryCommand). -/
structure QueryCommand where
  target : QueryTarget
  fields : FieldList
  from_path : Option String
  where_clause : Option WhereClause

/-- DELETE FILES action (ast.rs DeleteFilesCommand). -/
structure DeleteFilesCommand where
  path : String
  where_clause : Option WhereClause

/-- KILL PROCESS action (ast.rs KillProcessCommand). -/
structure KillProcessCommand where
  where_clause : WhereClause

/-- Destructive actions (ast.rs ActionCommand). -/
inductive ActionCommand where
  | deleteFiles (cmd : DeleteFilesCommand)
  | killProcess (cmd : KillProcessCommand)

/-- SHOW targets (ast.rs ShowTarget). -/
inductive ShowTarget where
  | context
  | variables
  | history
  deriving DecidableEq, Repr

/-- Context navigation commands (ast.rs ContextCommand). -/
inductive ContextCommand where
  | enterFolder (path : String)
  | enterFile (path : String)
  | exit
  | reset
  | show (target : ShowTarget)

/-- Values assignable with LET (ast.rs LetValue). -/
inductive LetValue where
  | string (s : String)
  | number (n : ℚ)
  | size (bytes : ℕ)
  | boolean (b : Bool)
  | path (p : String)

/-- LET statement (ast.rs LetStatement). -/
structure LetStatement where
  name : String
  value : LetValue

/-- IF condition (ast.rs IfCondition). -/
structure IfCondition where
  target : QueryTarget
  field : String
  operator : CompareOp
  value : Value

/-- Monitorable resources (ast.rs LifeTarget). -/
inductive LifeTarget where
  | battery
  | memory
  | cpu
  | disk
  | network
  | processes
  deriving DecidableEq, Repr

/-- PRINT expressions (ast.rs PrintExpr). -/
inductive PrintExpr where
  | queryField (target : QueryTarget) (field : String)
  | string (s : String)
  | variable (name : String)

/-- PRINT command (ast.rs PrintCommand). -/
structure PrintCommand where
  expressions : List PrintExpr

/-- Container creation options (ast.rs ContainerOptions). -/
structure ContainerOptions where
  allow_actions : Bool
  readonly : Bool
  deriving DecidableEq, Repr

/-- Default ContainerOptions (derived Default in ast.rs: both flags false). -/
def ContainerOptions.default : ContainerOptions :=
  { allow_actions := false, readonly := false }

/-- EXPORT CONTAINER command (ast.rs ExportContainer). -/
structure ExportContainer where
  name : String
  path : String

/-- Commands, the closed tagged command tree (ast.rs Command). The container
and control-flow variants carry nested command lists; CreateContainer is
inlined here because Lean nested inductives cannot route the recursion
through a separately declared structure. -/
inductive Command where
  | query (q : QueryCommand)
  | action (a : ActionCommand)
  | context (c : ContextCommand)
  | letCmd (l : LetStatement)
  | forLoop (iterator_var : String) (source_query : QueryCommand)
      (body : List Command)
  | ifCmd (condition : IfCondition) (then_body : List Command)
      (else_body : Option (List Command))
  | life (target : LifeTarget) (body : List Command)
  | print (p : PrintCommand)
  | containerCreate (name : String) (options : ContainerOptions)
      (body : List Command)
  | containerSwitch (name : String)
  | containerList
  | containerDestroy (name : String)
  | containerExport (e : ExportContainer)
  | explain (inner : Command)

/-- Scripts are ordered command lists (ast.rs Script). -/
structure Script where
  statements : List Command

/-- Recogniser for Action commands, used to state validator properties. -/
def Command.isAction : Command → Bool
  | .action _ => true
  | _ => false

/-! ### Script validator, from src/script/validator.rs -/

/-- Severity of a validation issue (validator.rs ValidationSeverity). -/
inductive ValidationSeverity where
  | error
  | warning
  deriving DecidableEq, Repr

/-- One validation issue (validator.rs ScriptValidationError). -/
structure ScriptValidationError where
  line : Option ℕ
  message : String
  severity : ValidationSeverity
  deriving DecidableEq, Repr

/-- Validation options (validator.rs ValidationOptions). -/
structure ValidationOptions where
  allow_actions : Bool
  allow_life_actions : Bool
  max_nesting_depth : ℕ
  deriving DecidableEq, Repr

/-- Default ValidationOptions (validator.rs impl Default). -/
def ValidationOptions.default : ValidationOptions :=
  { allow_actions := false, allow_life_actions := false
    max_nesting_depth := 10 }

/-- Display name of an action, as matched in validator.rs. -/
def action_name : ActionCommand → String
  | .deleteFiles _ => "DELETE FILES"
  | .killProcess _ => "KILL PROCESS"

/-- Well-known system-root paths warned about by the validator
(validator.rs dangerous_paths). -/
def dangerous_paths : List String := ["/", "/bin", "/etc", "/usr", "/var", "/home"]

/-- Issues produced by the validator for one Action command (validator.rs
validate_command, Command::Action arm). -/
def validate_action (action : ActionCommand) (options : ValidationOptions)
    (line : ℕ) : List ScriptValidationError :=
  (if !options.allow_actions then
    [{ line := some line
       message := action_name action ++
         " action found. Use --allow-actions to enable destructive actions"
       severity := .error }]
  else []) ++
  (match action with
   | .deleteFiles d =>
     (if d.where_clause.isNone then
       [{ line := some line
          message := "DELETE FILES without WHERE clause will delete ALL files!"
          severity := .warning }]
     else []) ++
     (if dangerous_paths.contains d.path then
       [{ line := some line
          message := "DELETE FILES targeting system path: " ++ d.path
          severity := .warning }]
     else [])
   | .killProcess _ => [])

/-- Issues produced for actions directly inside a container-create body when
the container lacks its own allow-actions option (validator.rs
Command::Container(Create) arm, second loop). -/
def container_action_warnings (body : List Command) (cname : String)
    (line : ℕ) : List ScriptValidationError :=
  body.foldr
    (fun c acc =>
      (match c with
       | .action a =>
         [{ line := some line
            message := action_name a ++ " action in container \x27" ++ cname ++
              "\x27 without ALLOW ACTIONS option"
            severity := .warning }]
       | _ => []) ++ acc)
    []

/-- Error produced for one direct child of a LIFE body when it is an Action
and allow_life_actions is unset (validator.rs Command::Life arm, the check
preceding the recursive call). -/
def life_action_check (c : Command) (options : ValidationOptions)
    (line : ℕ) : List ScriptValidationError :=
  match c with
  | .action _ =>
    if !options.allow_life_actions then
      [{ line := some line
         message := "LIFE blocks cannot contain destructive actions by default"
         severity := .error }]
    else []
  | _ => []

mutual

/-- Validation walk for one command (validator.rs validate_command). The
Vec of accumulated errors is modelled by returning, in push order, the list
of issues this call appends. -/
def validate_command (cmd : Command) (options : ValidationOptions)
    (line : ℕ) (depth : ℕ) : List ScriptValidationError :=
  if depth > options.max_nesting_depth then
    [{ line := some line
       message := "Maximum nesting depth (" ++
         toString options.max_nesting_depth ++ ") exceeded"
       severity := .error }]
  else
    match cmd with
    | .action action => validate_action action options line
    | .forLoop _ _ body => validate_body body options line (depth + 1)
    | .ifCmd _ then_body else_body =>
      validate_body then_body options line (depth + 1) ++
      (match else_body with
       | some eb => validate_body eb options line (depth + 1)
       | none => [])
    | .life _ body => validate_life_body body options line (depth + 1)
    | .containerCreate cname copts body =>
      validate_body body options line (depth + 1) ++
      (if !copts.allow_actions then container_action_warnings body cname line
       else [])
    | _ => []

/-- Sequential validation of a nested command list (the per-item
validate_command calls in the For/If/Container arms of validator.rs). -/
def validate_body (cmds : List Command) (options : ValidationOptions)
    (line : ℕ) (depth : ℕ) : List ScriptValidationError :=
  match cmds with
  | [] => []
  | c :: rest =>
    validate_command c options line depth ++
    validate_body rest options line depth

/-- Validation of a LIFE body (validator.rs Command::Life arm): each direct
child that is an Action yields an Error unless allow_life_actions is set,
then the child is validated recursively. -/
def validate_life_body (cmds : List Command) (options : ValidationOptions)
    (line : ℕ) (depth : ℕ) : List ScriptValidationError :=
  match cmds with
  | [] => []
  | c :: rest =>
    life_action_check c options line ++
    validate_command c options line depth ++
    validate_life_body rest options line depth

end

/-- Validation of the top-level statement list, numbering lines from the
given index (validator.rs validate_script loop, with line = i + 1). -/
def validate_statements (stmts : List Command) (options : ValidationOptions)
    (line : ℕ) : List ScriptValidationError :=
  match stmts with
  | [] => []
  | c :: rest =>
    validate_command c options line 0 ++
    validate_statements rest options (line + 1)

/-- Whole-script validation (validator.rs validate_script). -/
def validate_script (script : Script) (options : ValidationOptions) :
    List ScriptValidationError :=
  validate_statements script.statements options 1

/-- Existence of an Error-severity issue (validator.rs has_errors). -/
def has_errors (errors : List ScriptValidationError) : Bool :=
  errors.any (fun e => e.severity == .error)

/-- Existence of a Warning-severity issue (validator.rs has_warnings). -/
def has_warnings (errors : List ScriptValidationError) : Bool :=
  errors.any (fun e => e.severity == .warning)

/-! ### Validator theorems -/

theorem has_errors_append (xs ys : List ScriptValidationError) :
    has_errors (xs ++ ys) = (has_errors xs || has_errors ys) := by
  simp [has_errors]

/-- C2: validating a single delete-type action with allow_actions=false
yields at least one Error-severity issue; with allow_actions=true it yields
none (only Warnings may remain). -/
theorem single_delete_action_validation (d : DeleteFilesCommand)
    (o₁ o₂ : ValidationOptions)
    (h₁ : o₁.allow_actions = false) (h₂ : o₂.allow_actions = true) :
    has_errors (validate_script ⟨[.action (.deleteFiles d)]⟩ o₁) = true ∧
    has_errors (validate_script ⟨[.action (.deleteFiles d)]⟩ o₂) = false := by
  constructor
  · simp [validate_script, validate_statements, validate_command,
      validate_action, h₁, has_errors]
  · cases hwc : d.where_clause.isNone <;>
      cases hdp : dangerous_paths.contains d.path <;>
        simp [validate_script, validate_statements, validate_command,
          validate_action, h₂, hwc, hdp, has_errors]

/-- C2 witness at a concrete delete command and concrete option records. -/
theorem single_delete_action_validation_witness :
    ValidationOptions.default.allow_actions = false ∧
    ({ ValidationOptions.default with
        allow_actions := true } : ValidationOptions).allow_actions = true ∧
    (has_errors (validate_script ⟨[.action (.deleteFiles ⟨"/tmp", none⟩)]⟩
        ValidationOptions.default) = true ∧
      has_errors (validate_script ⟨[.action (.deleteFiles ⟨"/tmp", none⟩)]⟩
        { ValidationOptions.default with allow_actions := true }) = false) :=
  ⟨rfl, rfl,
    single_delete_action_validation ⟨"/tmp", none⟩
      ValidationOptions.default
      { ValidationOptions.default with allow_actions := true } rfl rfl⟩

theorem isAction_iff (c : Command) :
    c.isAction = true ↔ ∃ a, c = Command.action a := by
  cases c <;> simp [Command.isAction]

theorem validate_life_body_error_of_mem (cmds : List Command)
    (options : ValidationOptions) (line depth : ℕ)
    (hlife : options.allow_life_actions = false)
    (hmem : ∃ c ∈ cmds, c.isAction = true) :
    has_errors (validate_life_body cmds options line depth) = true := by
  induction cmds with
  | nil => simp at hmem
  | cons c rest ih =>
    rw [validate_life_body, has_errors_append, has_errors_append]
    obtain ⟨c₀, hc₀mem, hc₀act⟩ := hmem
    rcases List.mem_cons.mp hc₀mem with hHead | hTail
    · obtain ⟨a, ha⟩ := (isAction_iff c₀).mp hc₀act
      have hc : c = Command.action a := by rw [← hHead, ha]
      subst hc
      simp [life_action_check, hlife, has_errors]
    · rw [ih ⟨c₀, hTail, hc₀act⟩]
      simp

theorem validate_statements_error_of_middle (y : Command)
    (options : ValidationOptions)
    (hy : ∀ l, has_errors (validate_command y options l 0) = true) :
    ∀ (xs ys : List Command) (line : ℕ),
      has_errors (validate_statements (xs ++ y :: ys) options line) = true := by
  intro xs
  induction xs with
  | nil =>
    intro ys line
    rw [List.nil_append, validate_statements, has_errors_append, hy line]
    simp
  | cons x rest ih =>
    intro ys line
    rw [List.cons_append, validate_statements, has_errors_append, ih ys (line + 1)]
    simp

/-- C3 (amended): an Action command that is a DIRECT child of a LIFE body
makes the validator report an Error-severity issue whenever
allow_life_actions is false, independently of allow_actions and of the
surrounding statements. (As stated, the claim fails for deeper nesting:
see life_deep_action_no_error.) -/
theorem life_direct_child_action_error (stmts₁ stmts₂ : List Command)
    (target : LifeTarget) (body : List Command)
    (options : ValidationOptions)
    (hlife : options.allow_life_actions = false)
    (hmem : ∃ c ∈ body, c.isAction = true) :
    has_errors (validate_script
      ⟨stmts₁ ++ Command.life target body :: stmts₂⟩ options) = true := by
  refine validate_statements_error_of_middle _ options ?_ stmts₁ stmts₂ 1
  intro l
  rw [validate_command, if_neg (Nat.not_lt_zero options.max_nesting_depth)]
  exact validate_life_body_error_of_mem body options l 1 hlife hmem

/-- C3 witness: a LIFE body with a direct delete action, validated with
allow_actions=true but allow_life_actions=false, yields an Error. -/
theorem life_direct_child_action_error_witness :
    (⟨true, false, 10⟩ : ValidationOptions).allow_life_actions = false ∧
    (∃ c ∈ [Command.action (.deleteFiles ⟨"/tmp", none⟩)], c.isAction = true) ∧
    has_errors (validate_script
      ⟨[Command.life .cpu [Command.action (.deleteFiles ⟨"/tmp", none⟩)]]⟩
      ⟨true, false, 10⟩) = true :=
  ⟨rfl, by decide,
    life_direct_child_action_error [] [] .cpu
      [Command.action (.deleteFiles ⟨"/tmp", none⟩)]
      ⟨true, false, 10⟩ rfl (by decide)⟩

/-- C3 counterexample: an Action nested one level deeper inside the LIFE
body (inside an IF) with allow_life_actions=false and allow_actions=true
produces NO Error-severity issue, refuting the claim that actions at any
nesting depth inside a LIFE body are flagged independently of
allow_actions. -/
theorem life_deep_action_no_error :
    has_errors (validate_script
      ⟨[Command.life .cpu
        [Command.ifCmd ⟨.cpu, "usage", .greaterThan, .number 50⟩
          [Command.action (.deleteFiles ⟨"/data", none⟩)] none]]⟩
      ⟨true, false, 10⟩) = false := by
  decide

/-! ### Error taxonomy, from src/error.rs -/

/-- Error taxonomy (error.rs ArtaError). The io::Error payload of IoError
is not inspected by any modelled function and is omitted. -/
inductive ArtaError where
  | parseError (msg : String)
  | executionError (msg : String)
  | securityError (msg : String)
  | ioError
  | actionsDisabled
  | invalidTarget (msg : String)
  | invalidField (msg : String)
  | pathNotFound (path : String)
  | permissionDenied (msg : String)
  deriving DecidableEq, Repr

/-- Security/policy-violation error class. The spec's error taxonomy (§7)
groups the actions-disabled refusal under SecurityError together with the
SecurityError(String) variant, and error.rs renders ActionsDisabled as a
policy-violation message (Actions not enabled. Use --allow-actions ...). -/
def ArtaError.isSecurityClass : ArtaError → Bool
  | .securityError _ => true
  | .actionsDisabled => true
  | _ => false

/-! ### IEEE-754 double model and size-literal parsing, from
src/parser/grammar.rs -/

/-- Dyadic model of a non-negative finite IEEE-754 double: the value
m * 2^e. roundF64frac produces m in the interval from 2^52 to 2^53
inclusive (2^53 only at a round-to-even carry, denoting the same real
value as mantissa 2^52 with exponent e + 1), or m = 0 for zero. Negative
values and subnormals never arise on the modelled code path, and overflow
to infinity needs no separate case because the saturating cast maps every
value at or above 2^64 to u64::MAX anyway. -/
structure F64 where
  m : ℕ
  e : ℤ
  deriving DecidableEq, Repr

/-- Round-to-nearest, ties-to-even, of the fraction n / d to an integer. -/
def roundHalfEven (n d : ℕ) : ℕ :=
  let q := n / d
  let r := n % d
  if 2 * r < d then q
  else if d < 2 * r then q + 1
  else if q % 2 = 0 then q else q + 1

/-- Mantissa normalisation loop: scales the fraction n / d by powers of two
(tracked in the exponent e) until it lies in the mantissa range starting at
2^52, then rounds to the nearest mantissa. The fuel bounds the number of
scaling steps; 4096 covers every finite double. -/
def normLoop : ℕ → ℕ → ℕ → ℤ → F64
  | 0, n, d, e => ⟨roundHalfEven n d, e⟩
  | fuel + 1, n, d, e =>
    if n < 2 ^ 52 * d then normLoop fuel (2 * n) d (e - 1)
    else if 2 ^ 53 * d ≤ n then normLoop fuel n (2 * d) (e + 1)
    else ⟨roundHalfEven n d, e⟩

/-- Nearest double to the non-negative fraction n / d (round to nearest,
ties to even); this models Rust str::parse::<f64> applied to a decimal
numeral whose exact value is n / d. -/
def roundF64frac (n d : ℕ) : F64 :=
  if n = 0 then ⟨0, 0⟩ else normLoop 4096 n d 0

/-- Nearest double to a natural number; this models the u64-to-f64 cast
applied to the multiplier in parse_size_value (exact for every power of
1024 up to 1024^4). -/
def natToF64 (n : ℕ) : F64 := roundF64frac n 1

/-- IEEE multiplication of two non-negative doubles: round the exact
product to the nearest double. -/
def f64mul (x y : F64) : F64 :=
  let e := x.e + y.e
  if 0 ≤ e then roundF64frac (x.m * y.m * 2 ^ e.toNat) 1
  else roundF64frac (x.m * y.m) (2 ^ (-e).toNat)

/-- Saturating f64-to-u64 cast (Rust as-cast): values at or above 2^64
become u64::MAX, other values are truncated toward zero. -/
def f64toU64 (x : F64) : ℕ :=
  if 0 ≤ x.e then
    let v := x.m * 2 ^ x.e.toNat
    if 2 ^ 64 ≤ v then 2 ^ 64 - 1 else v
  else
    let v := x.m / 2 ^ (-x.e).toNat
    if 2 ^ 64 ≤ v then 2 ^ 64 - 1 else v

/-- Test that the double x denotes exactly the fraction n / d, stated by
cross-multiplication so that it is kernel-decidable. -/
def dyadicEqFrac (x : F64) (n d : ℕ) : Bool :=
  if 0 ≤ x.e then x.m * 2 ^ x.e.toNat * d == n
  else x.m * d == n * 2 ^ (-x.e).toNat

/-- Numeric value of a digit list, most significant first. -/
def digitsToNat (l : List Char) : ℕ :=
  l.foldl (fun acc c => acc * 10 + (c.toNat - 48)) 0

/-- Modelled from the spec: the pest grammar file fixing the token shape of
size numerals is not under src/, so numerals follow the spec's description
of byte-count literals as integer or fractional decimal numbers: digits
with an optional point and further digits, at least one digit overall (the
shapes Rust's str::parse::<f64> accepts for such tokens). The result is
the exact value as a numerator over a power-of-ten denominator. -/
def decimalToFrac (s : List Char) : Option (ℕ × ℕ) :=
  let intPart := s.takeWhile Char.isDigit
  let rest := s.dropWhile Char.isDigit
  match rest with
  | [] => if intPart.isEmpty then none else some (digitsToNat intPart, 1)
  | '.' :: frac =>
    if frac.all Char.isDigit && !(intPart.isEmpty && frac.isEmpty) then
      some (digitsToNat intPart * 10 ^ frac.length + digitsToNat frac,
        10 ^ frac.length)
    else none
  | _ => none

/-- Unit-suffix split of parse_size_value (grammar.rs): the uppercased
input is tested for the suffixes TB, GB, MB, KB, B in that order; the
numeral slice of the original input and the 1024-based multiplier are
returned, and an unknown suffix is a ParseError. Rust to_uppercase is
modelled as ASCII uppercasing, which agrees with it on every character the
size-literal grammar admits. -/
def splitSizeSuffix (s : List Char) : Except ArtaError (List Char × ℕ) :=
  let su := s.map (fun c =>
    if 'a' ≤ c ∧ c ≤ 'z' then Char.ofNat (c.toNat - 32) else c)
  if List.isSuffixOf ['T', 'B'] su then
    .ok (s.take (s.length - 2), 1024 * 1024 * 1024 * 1024)
  else if List.isSuffixOf ['G', 'B'] su then
    .ok (s.take (s.length - 2), 1024 * 1024 * 1024)
  else if List.isSuffixOf ['M', 'B'] su then
    .ok (s.take (s.length - 2), 1024 * 1024)
  else if List.isSuffixOf ['K', 'B'] su then
    .ok (s.take (s.length - 2), 1024)
  else if List.isSuffixOf ['B'] su then
    .ok (s.take (s.length - 1), 1)
  else .error (.parseError ("Invalid size unit: " ++ String.mk s))

/-- Size-literal parsing (grammar.rs parse_size_value): split off the unit
suffix, parse the numeral to the nearest double, multiply by the multiplier
in double arithmetic, and cast the product to u64 with saturation. -/
def parse_size_value (s : List Char) : Except ArtaError ℕ :=
  match splitSizeSuffix s with
  | .error e => .error e
  | .ok (numStr, multiplier) =>
    match decimalToFrac numStr with
    | none =>
      .error (.parseError ("Invalid size number: " ++ String.mk numStr))
    | some (n, d) =>
      .ok (f64toU64 (f64mul (roundF64frac n d) (natToF64 multiplier)))

instance {α β : Type} [DecidableEq α] [DecidableEq β] :
    DecidableEq (Except α β) := fun a b =>
  match a, b with
  | .error x, .error y =>
    if h : x = y then .isTrue (by rw [h]) else .isFalse (by simp [h])
  | .ok x, .ok y =>
    if h : x = y then .isTrue (by rw [h]) else .isFalse (by simp [h])
  | .error _, .ok _ => .isFalse (by simp)
  | .ok _, .error _ => .isFalse (by simp)

theorem nat_div_eq_of_cross {a b c d : ℕ} (hb : 0 < b) (hd : 0 < d)
    (h : a * d = c * b) : a / b = c / d := by
  have h1 : a * d / (b * d) = a / b := Nat.mul_div_mul_right a b hd
  have h2 : c * b / (d * b) = c / d := Nat.mul_div_mul_right c d hb
  rw [← h1, ← h2, h, Nat.mul_comm b d]

/-- C4 (amended): parsing a size literal with numeral value n / d and unit
multiplier 1024^k yields exactly the floor of n·1024^k / d, provided the
scaled value is exactly representable as a double (which holds whenever the
numeral itself is, since multiplying by a power of two only shifts the
exponent) and lies below 2^64. Outside those conditions the numeral is
first rounded to the nearest double and the final cast saturates at
2^64 - 1, so the conversion is not exact for every numeral (see
parse_size_value_not_exact). -/
theorem parse_size_value_exact (s numStr : List Char) (mult n d : ℕ)
    (hsplit : splitSizeSuffix s = .ok (numStr, mult))
    (hnum : decimalToFrac numStr = some (n, d))
    (hd : 0 < d)
    (hprod : dyadicEqFrac (f64mul (roundF64frac n d) (natToF64 mult))
      (n * mult) d = true)
    (hrange : n * mult < 2 ^ 64 * d) :
    parse_size_value s = .ok (n * mult / d) := by
  have hmain : f64toU64 (f64mul (roundF64frac n d) (natToF64 mult)) =
      n * mult / d := by
    set x := f64mul (roundF64frac n d) (natToF64 mult) with hx
    by_cases he : (0 : ℤ) ≤ x.e
    · rw [dyadicEqFrac, if_pos he, beq_iff_eq] at hprod
      rw [f64toU64, if_pos he]
      have hvlt : ¬ 2 ^ 64 ≤ x.m * 2 ^ x.e.toNat := by
        intro h64
        have : 2 ^ 64 * d ≤ x.m * 2 ^ x.e.toNat * d :=
          Nat.mul_le_mul_right d h64
        rw [hprod] at this
        omega
      rw [if_neg hvlt]
      rw [← hprod, Nat.mul_div_cancel _ hd]
    · rw [dyadicEqFrac, if_neg he, beq_iff_eq] at hprod
      rw [f64toU64, if_neg he]
      have hpow : 0 < 2 ^ (-x.e).toNat := Nat.pos_pow_of_pos _ (by omega)
      have hvlt : ¬ 2 ^ 64 ≤ x.m / 2 ^ (-x.e).toNat := by
        intro h64
        have hm : 2 ^ 64 * 2 ^ (-x.e).toNat ≤ x.m :=
          (Nat.le_div_iff_mul_le hpow).mp h64
        have : 2 ^ 64 * 2 ^ (-x.e).toNat * d ≤ x.m * d :=
          Nat.mul_le_mul_right d hm
        rw [hprod] at this
        have : 2 ^ 64 * d * 2 ^ (-x.e).toNat ≤
            n * mult * 2 ^ (-x.e).toNat := by
          calc 2 ^ 64 * d * 2 ^ (-x.e).toNat
              = 2 ^ 64 * 2 ^ (-x.e).toNat * d := by ring
            _ ≤ n * mult * 2 ^ (-x.e).toNat := this
        have := Nat.le_of_mul_le_mul_right this hpow
        omega
      rw [if_neg hvlt]
      exact nat_div_eq_of_cross hpow hd hprod
  simp only [parse_size_value, hsplit, hnum, hmain]

/-- C4 witness at the size literal 2.5KB, which is exactly representable
and in range: the parse yields 25 * 1024 / 10 = 2560 bytes. -/
theorem parse_size_value_exact_witness :
    splitSizeSuffix "2.5KB".toList = .ok ("2.5".toList, 1024) ∧
    decimalToFrac "2.5".toList = some (25, 10) ∧
    0 < 10 ∧
    dyadicEqFrac (f64mul (roundF64frac 25 10) (natToF64 1024))
      (25 * 1024) 10 = true ∧
    25 * 1024 < 2 ^ 64 * 10 ∧
    parse_size_value "2.5KB".toList = .ok (25 * 1024 / 10) :=
  ⟨by decide, by decide, by decide, by decide, by decide,
    parse_size_value_exact "2.5KB".toList "2.5".toList 1024 25 10
      (by decide) (by decide) (by decide) (by decide) (by decide)⟩

/-- C4 counterexample: the conversion is not exact for every numeral. The
numeral 10^19 is exactly representable as a double, yet parsing
10000000000000000000KB saturates at u64::MAX = 2^64 - 1 instead of the
exact 10^19 * 1024; and parsing 0.9999999999999999999KB yields 1024
because the numeral rounds to the double 1.0, while the exact floored
value is 1023. -/
theorem parse_size_value_not_exact :
    parse_size_value "10000000000000000000KB".toList =
      .ok (2 ^ 64 - 1) ∧
    10 ^ 19 * 1024 / 1 ≠ 2 ^ 64 - 1 ∧
    parse_size_value "0.9999999999999999999KB".toList = .ok 1024 ∧
    9999999999999999999 * 1024 / 10 ^ 19 = 1023 := by
  refine ⟨by decide, by decide, by decide, by decide⟩

/-! ### Paths, the file-system interface, and the execution context, from
src/context/mod.rs -/

/-- Slash-separated path, modelling Rust PathBuf as an absolute flag plus
the list of components. -/
structure Path where
  absolute : Bool
  comps : List String
  deriving DecidableEq, Repr

/-- Path join (Rust Path::join): joining an absolute path replaces the
base, otherwise the components are appended. -/
def Path.join (base p : Path) : Path :=
  if p.absolute then p else ⟨base.absolute, base.comps ++ p.comps⟩

/-- Rendering of a path for messages (Rust Display / to_string_lossy). -/
def Path.render (p : Path) : String :=
  (if p.absolute then "/" else "") ++ String.intercalate "/" p.comps

/-- Accumulator pass splitting a character list at slashes into nonempty
components. -/
def splitSlashAux : List Char → List Char → List String → List String
  | [], cur, acc =>
    (if cur.isEmpty then acc else String.mk cur.reverse :: acc).reverse
  | c :: rest, cur, acc =>
    if c = '/' then
      splitSlashAux rest []
        (if cur.isEmpty then acc else String.mk cur.reverse :: acc)
    else splitSlashAux rest (c :: cur) acc

/-- Parse a path string into the Path model (Rust Path::new): a leading
slash marks it absolute, the slash-separated nonempty segments are the
components. -/
def parsePath (s : String) : Path :=
  ⟨s.toList.head? = some '/', splitSlashAux s.toList [] []⟩

/-- File-system interface consumed by the context operations and the file
actions: the existing directories, the existing files with their sizes
(metadata len), and the canonicalization oracle modelling symlink
resolution (fs::canonicalize); canon is none when canonicalization fails
with an io error. -/
structure FileSystem where
  dirs : List Path
  files : List (Path × ℕ)
  canon : Path → Option Path

/-- Directory test (Rust Path::is_dir against the modelled tables). -/
def FileSystem.isDir (fs : FileSystem) (p : Path) : Bool :=
  fs.dirs.contains p

/-- File test (Rust Path::is_file against the modelled tables). -/
def FileSystem.isFile (fs : FileSystem) (p : Path) : Bool :=
  (fs.files.map Prod.fst).contains p

/-- Existence test (Rust Path::exists). -/
def FileSystem.pathExists (fs : FileSystem) (p : Path) : Bool :=
  fs.isDir p || fs.isFile p

/-- Variable values (context/mod.rs VariableValue), with the f64 payload
as an exact rational. -/
inductive VariableValue where
  | string (s : String)
  | number (n : ℚ)
  | size (bytes : ℕ)
  | boolean (b : Bool)
  | path (p : Path)
  deriving DecidableEq, Repr

/-- History entry (context/mod.rs ContextHistoryEntry); the wall-clock
timestamp is omitted, per the modelling conventions. -/
structure HistoryEntry where
  action : String
  path : Option Path
  deriving DecidableEq, Repr

/-- Execution context (context/mod.rs Context): the folder stack (modelled
with the Rust Vec top at the list head), the focused file, the variable
map (association list, first match wins; the Rust field is called
variables, which Lean reserves, hence vars), and the history log (most
recent first). -/
structure Context where
  folder_stack : List Path
  current_file : Option Path
  vars : List (String × VariableValue)
  history : List HistoryEntry
  deriving DecidableEq, Repr

/-- Current working folder (context/mod.rs current_folder): the stack top,
with the root path as the unreachable empty-stack fallback. -/
def Context.current_folder (ctx : Context) : Path :=
  (ctx.folder_stack.head?).getD ⟨true, []⟩

/-- Folder-stack depth (context/mod.rs folder_depth). -/
def Context.folder_depth (ctx : Context) : ℕ :=
  ctx.folder_stack.length

/-- Path resolution against the current context (context/mod.rs
resolve_path): absolute paths pass through, relative paths join the
current folder. -/
def Context.resolve_path (ctx : Context) (path : String) : Path :=
  let p := parsePath path
  if p.absolute then p else Path.join ctx.current_folder p

/-- Enter a folder context (context/mod.rs enter_folder): resolve, check
existence and directory kind, canonicalize, push the canonical path,
clear the focused file, and log the change. -/
def Context.enter_folder (ctx : Context) (fs : FileSystem) (path : String) :
    Except ArtaError Context :=
  let p := ctx.resolve_path path
  if !fs.pathExists p then
    .error (.pathNotFound p.render)
  else if !fs.isDir p then
    .error (.executionError ("\x27" ++ p.render ++ "\x27 is not a directory"))
  else
    match fs.canon p with
    | none => .error .ioError
    | some c =>
      .ok { ctx with
        folder_stack := c :: ctx.folder_stack
        current_file := none
        history := ⟨"ENTER FOLDER", some c⟩ :: ctx.history }

/-- Exit the current context (context/mod.rs exit_context): clear the
focused file if set, else pop the folder stack unless only the root
remains, else report an error. -/
def Context.exit_context (ctx : Context) : Except ArtaError Context :=
  if ctx.current_file.isSome then
    .ok { ctx with
      current_file := none
      history := ⟨"EXIT FILE", none⟩ :: ctx.history }
  else if ctx.folder_stack.length > 1 then
    .ok { ctx with
      folder_stack := ctx.folder_stack.tail
      history := ⟨"EXIT FOLDER", ctx.folder_stack.head?⟩ :: ctx.history }
  else
    .error (.executionError "Already at root context, cannot exit further")

/-! ### Context theorems -/

/-- C6: a successful enter_folder followed by exit_context restores the
exact prior folder stack (so in particular its depth and top element), and
exit_context on a context at depth 1 with no focused file is an Error,
never a no-op. The depth hypothesis is the documented stack invariant
(depth at least 1 at all times). -/
theorem enter_folder_exit_context (ctx : Context) (fs : FileSystem)
    (path : String) (ctx' : Context)
    (hdepth : 1 ≤ ctx.folder_stack.length)
    (henter : ctx.enter_folder fs path = .ok ctx') :
    (∃ ctxAfter, ctx'.exit_context = .ok ctxAfter ∧
      ctxAfter.folder_stack = ctx.folder_stack ∧
      ctxAfter.folder_depth = ctx.folder_depth ∧
      ctxAfter.folder_stack.head? = ctx.folder_stack.head?) ∧
    (∀ ctx₀ : Context, ctx₀.folder_stack.length = 1 →
      ctx₀.current_file = none →
      ctx₀.exit_context =
        .error (.executionError "Already at root context, cannot exit further")) := by
  constructor
  · simp only [Context.enter_folder] at henter
    by_cases h1 : (!fs.pathExists (ctx.resolve_path path)) = true
    · rw [if_pos h1] at henter; exact absurd henter (by simp)
    rw [if_neg h1] at henter
    by_cases h2 : (!fs.isDir (ctx.resolve_path path)) = true
    · rw [if_pos h2] at henter; exact absurd henter (by simp)
    rw [if_neg h2] at henter
    cases hc : fs.canon (ctx.resolve_path path) with
    | none => rw [hc] at henter; exact absurd henter (by simp)
    | some c =>
      rw [hc, Except.ok.injEq] at henter
      subst henter
      rw [Context.exit_context]
      rw [if_neg (by simp)]
      rw [if_pos (by simp only [List.length_cons]; omega)]
      exact ⟨_, rfl, rfl, rfl, rfl⟩
  · intro ctx₀ hlen hfile
    rw [Context.exit_context, hfile]
    simp [hlen]

/-- C6 witness on a one-directory file system, entering /d from the root
context and exiting again. -/
theorem enter_folder_exit_context_witness :
    1 ≤ ([⟨true, []⟩] : List Path).length ∧
    Context.enter_folder ⟨[⟨true, []⟩], none, [], []⟩
      ⟨[⟨true, ["d"]⟩], [], fun p => some p⟩ "/d" =
      .ok ⟨[⟨true, ["d"]⟩, ⟨true, []⟩], none, [],
        [⟨"ENTER FOLDER", some ⟨true, ["d"]⟩⟩]⟩ ∧
    ((∃ ctxAfter, Context.exit_context
        ⟨[⟨true, ["d"]⟩, ⟨true, []⟩], none, [],
          [⟨"ENTER FOLDER", some ⟨true, ["d"]⟩⟩]⟩ = .ok ctxAfter ∧
        ctxAfter.folder_stack = [⟨true, []⟩] ∧
        ctxAfter.folder_depth = Context.folder_depth ⟨[⟨true, []⟩], none, [], []⟩ ∧
        ctxAfter.folder_stack.head? = some ⟨true, []⟩) ∧
      (∀ ctx₀ : Context, ctx₀.folder_stack.length = 1 →
        ctx₀.current_file = none →
        ctx₀.exit_context =
          .error (.executionError "Already at root context, cannot exit further"))) :=
  ⟨by decide, by decide,
    enter_folder_exit_context ⟨[⟨true, []⟩], none, [], []⟩
      ⟨[⟨true, ["d"]⟩], [], fun p => some p⟩ "/d"
      ⟨[⟨true, ["d"]⟩, ⟨true, []⟩], none, [],
        [⟨"ENTER FOLDER", some ⟨true, ["d"]⟩⟩]⟩
      (by decide) (by decide)⟩

/-- C10: every successful enter_folder clears the focused file (even when
one was focused beforehand), pushes exactly one folder onto the stack
leaving the rest unchanged, and leaves the variable map unchanged. -/
theorem enter_folder_frame (ctx : Context) (fs : FileSystem)
    (path : String) (ctx' : Context)
    (henter : ctx.enter_folder fs path = .ok ctx') :
    ctx'.current_file = none ∧
    ctx'.vars = ctx.vars ∧
    ∃ c, ctx'.folder_stack = c :: ctx.folder_stack := by
  simp only [Context.enter_folder] at henter
  by_cases h1 : (!fs.pathExists (ctx.resolve_path path)) = true
  · rw [if_pos h1] at henter; exact absurd henter (by simp)
  rw [if_neg h1] at henter
  by_cases h2 : (!fs.isDir (ctx.resolve_path path)) = true
  · rw [if_pos h2] at henter; exact absurd henter (by simp)
  rw [if_neg h2] at henter
  cases hc : fs.canon (ctx.resolve_path path) with
  | none => rw [hc] at henter; exact absurd henter (by simp)
  | some c =>
    rw [hc, Except.ok.injEq] at henter
    rw [← henter]
    exact ⟨rfl, rfl, c, rfl⟩

/-- C10 witness: entering /d with a file focused clears the focus, keeps
the variables, and pushes one element. -/
theorem enter_folder_frame_witness :
    Context.enter_folder
      ⟨[⟨true, []⟩], some ⟨true, ["f"]⟩, [("x", .boolean true)], []⟩
      ⟨[⟨true, ["d"]⟩], [(⟨true, ["f"]⟩, 1)], fun p => some p⟩ "/d" =
      .ok ⟨[⟨true, ["d"]⟩, ⟨true, []⟩], none, [("x", .boolean true)],
        [⟨"ENTER FOLDER", some ⟨true, ["d"]⟩⟩]⟩ ∧
    ((⟨[⟨true, ["d"]⟩, ⟨true, []⟩], none, [("x", .boolean true)],
        [⟨"ENTER FOLDER", some ⟨true, ["d"]⟩⟩]⟩ : Context).current_file = none ∧
      (⟨[⟨true, ["d"]⟩, ⟨true, []⟩], none, [("x", .boolean true)],
        [⟨"ENTER FOLDER", some ⟨true, ["d"]⟩⟩]⟩ : Context).vars =
        [("x", .boolean true)] ∧
      ∃ c, (⟨[⟨true, ["d"]⟩, ⟨true, []⟩], none, [("x", .boolean true)],
        [⟨"ENTER FOLDER", some ⟨true, ["d"]⟩⟩]⟩ : Context).folder_stack =
        c :: [⟨true, []⟩]) :=
  ⟨by decide,
    enter_folder_frame
      ⟨[⟨true, []⟩], some ⟨true, ["f"]⟩, [("x", .boolean true)], []⟩
      ⟨[⟨true, ["d"]⟩], [(⟨true, ["f"]⟩, 1)], fun p => some p⟩ "/d"
      ⟨[⟨true, ["d"]⟩, ⟨true, []⟩], none, [("x", .boolean true)],
        [⟨"ENTER FOLDER", some ⟨true, ["d"]⟩⟩]⟩
      (by decide)⟩

/-! ### File-deletion action, from src/engine/actions/files.rs, and the
action gate, from src/engine/executor.rs -/

/-- Result of a destructive action (engine/actions/mod.rs ActionResult). -/
structure ActionResult where
  action_type : String
  affected_count : ℕ
  dry_run : Bool
  details : List String
  deriving DecidableEq, Repr

/-- Per-file metadata assembled by the delete scan (files.rs FileInfo). -/
structure FileInfo where
  path : String
  name : String
  size : ℕ
  extension : String
  deriving DecidableEq, Repr

/-- ASCII lowering of a string; Rust to_lowercase and eq_ignore_ascii_case
agree with it on the ASCII file names and filter literals the modelled
comparisons see. -/
def asciiLower (s : String) : String :=
  String.mk (s.toList.map Char.toLower)

/-- Machine epsilon of f64 (2^-52), used by the numeric comparisons. -/
def epsF64 : ℚ := 1 / 2 ^ 52

/-- Numeric comparison dispatch (files.rs compare_numbers); the f64
arguments are modelled as exact rationals, which agrees with the source
for sizes below 2^53. -/
def compare_numbers (left right : ℚ) (op : CompareOp) : Bool :=
  match op with
  | .equal => decide (|left - right| < epsF64)
  | .notEqual => decide (epsF64 ≤ |left - right|)
  | .greaterThan => decide (right < left)
  | .greaterThanOrEqual => decide (right ≤ left)
  | .lessThan => decide (left < right)
  | .lessThanOrEqual => decide (left ≤ right)
  | _ => false

/-- SQL LIKE matching after files.rs replaces the percent wildcard by a
dotstar in an anchored case-insensitive regex: segments must appear in
order, the first anchored at the start, the last at the end (both inputs
already lowercased). Filter literals containing other regex
metacharacters are not modelled. -/
def likeMatch : List Char → List Char → Bool
  | [], s => s.isEmpty
  | '%' :: ps, s =>
    likeMatch ps s ||
      (match s with
       | [] => false
       | _ :: s' => likeMatch ('%' :: ps) s')
  | p :: ps, s =>
    match s with
    | [] => false
    | c :: s' => p == c && likeMatch ps s'
  termination_by pat s => (pat.length, s.length)
  decreasing_by
    · simp_wf; omega
    · simp_wf; omega
    · simp_wf; omega

/-- Contiguous-substring test on character lists (Rust str::contains). -/
def charsContain (needle : List Char) : List Char → Bool
  | [] => needle.isEmpty
  | c :: rest =>
    List.isPrefixOf needle (c :: rest) || charsContain needle rest

/-- String comparison dispatch (files.rs compare_strings). -/
def compare_strings (left right : String) (op : CompareOp) : Bool :=
  match op with
  | .equal => asciiLower left == asciiLower right
  | .notEqual => !(asciiLower left == asciiLower right)
  | .like => likeMatch (asciiLower right).toList (asciiLower left).toList
  | .contains =>
    charsContain (asciiLower right).toList (asciiLower left).toList
  | _ => false

/-- Saturating truncating f64-to-u64 cast on the exact-rational f64 model
(the target-value casts in files.rs matches_file_condition). -/
def ratToU64 (q : ℚ) : ℕ :=
  if q < 0 then 0
  else if (18446744073709551616 : ℚ) ≤ q then 18446744073709551615
  else q.floor.toNat

/-- Per-field condition test against one file (files.rs
matches_file_condition): size compares numerically, name and extension
compare as strings, any other field matches trivially. -/
def matches_file_condition (file : FileInfo) (condition : Condition) : Bool :=
  let field := asciiLower condition.field
  if field == "size" then
    match condition.value with
    | .number n => compare_numbers (file.size : ℚ) ((ratToU64 n : ℕ) : ℚ)
        condition.operator
    | .size s => compare_numbers (file.size : ℚ) (s : ℚ) condition.operator
    | _ => false
  else if field == "name" then
    match condition.value with
    | .string s => compare_strings file.name s condition.operator
    | _ => false
  else if field == "extension" || field == "ext" then
    match condition.value with
    | .string s => compare_strings file.extension s condition.operator
    | _ => false
  else true

/-- Conjunction of the top-level conditions (files.rs
matches_file_where_clause); the optional next links are ignored, as in the
source (see the spec's open question on OR). -/
def matches_file_where_clause (file : FileInfo) (wc : WhereClause) : Bool :=
  wc.conditions.all (fun ce => matches_file_condition file ce.condition)

/-- Extension of a file name: the segment after the last dot, empty when
there is no dot (files.rs extension().unwrap_or_default(); the dotfile
corner of Rust Path::extension is not distinguished). -/
def extensionOf (name : String) : String :=
  let r := name.toList.reverse
  if r.any (fun c => c = '.') then
    String.mk (r.takeWhile (fun c => c != '.')).reverse
  else ""

/-- FileInfo assembled from a directory entry (files.rs, the scan loop). -/
def mkFileInfo (p : Path) (size : ℕ) : FileInfo :=
  let name := (p.comps.getLast?).getD ""
  { path := p.render, name := name, size := size
    extension := extensionOf name }

/-- Directory enumeration combined with the is_file filter of the scan
loop: the files whose parent is the given directory, in file-table order
(the model fixes the platform-dependent read_dir order to table order). -/
def FileSystem.filesIn (fs : FileSystem) (dir : Path) : List (Path × ℕ) :=
  fs.files.filter (fun f =>
    (f.1.absolute == dir.absolute) && (f.1.comps.dropLast == dir.comps) &&
      !f.1.comps.isEmpty)

/-- Directory entries matching the WHERE clause (files.rs scan loop with
its push-if-matches body). -/
def matched_entries (fs : FileSystem) (base : Path)
    (where_clause : Option WhereClause) : List (Path × ℕ) :=
  (fs.filesIn base).filter (fun f =>
    match where_clause with
    | some wc => matches_file_where_clause (mkFileInfo f.1 f.2) wc
    | none => false)

/-- Safety ceiling on one delete operation (files.rs
MAX_FILES_PER_OPERATION). -/
def MAX_FILES_PER_OPERATION : ℕ := 100

/-- Dry-run detail line for one candidate file (files.rs). -/
def would_delete_line (f : Path × ℕ) : String :=
  "Would delete: " ++ (mkFileInfo f.1 f.2).path ++ " (" ++ toString f.2 ++
    " bytes)"

/-- Deletion detail line for one removed file (files.rs). -/
def deleted_line (f : Path × ℕ) : String :=
  "Deleted: " ++ (mkFileInfo f.1 f.2).path

/-- File deletion (files.rs delete_files), returning the action result and
the file system after the call: existence, directory-kind and
WHERE-present checks, non-recursive scan, the match-count ceiling, then
either a preview (dry run, file system unchanged) or removal of the
matched files (removal of a scanned file always succeeds in the model, so
deleted_count equals the match count). -/
def delete_files (fs : FileSystem) (path : String)
    (where_clause : Option WhereClause) (dry_run : Bool) :
    Except ArtaError ActionResult × FileSystem :=
  let base_path := parsePath path
  if !fs.pathExists base_path then
    (.error (.pathNotFound path), fs)
  else if !fs.isDir base_path then
    (.error (.executionError (path ++ " is not a directory")), fs)
  else if where_clause.isNone then
    (.error (.securityError
      "DELETE without WHERE clause is too dangerous. Add a WHERE clause to filter files."),
      fs)
  else
    let matched := matched_entries fs base_path where_clause
    if matched.length > MAX_FILES_PER_OPERATION then
      (.error (.securityError ("Too many files to delete (" ++
        toString matched.length ++ " > " ++
        toString MAX_FILES_PER_OPERATION ++
        "). Please use a more specific WHERE clause.")), fs)
    else if dry_run then
      (.ok { action_type := "DELETE FILES"
             affected_count := matched.length
             dry_run := true
             details := matched.map would_delete_line }, fs)
    else
      (.ok { action_type := "DELETE FILES"
             affected_count := matched.length
             dry_run := false
             details := matched.map deleted_line },
        { fs with files := fs.files.filter (fun f =>
            !(matched.map Prod.fst).contains f.1) })

/-- Output formats (output/mod.rs OutputFormat). -/
inductive OutputFormat where
  | human
  | json
  deriving DecidableEq, Repr

/-- Run policy (executor.rs ExecutionContext). -/
structure ExecutionContext where
  dry_run : Bool
  allow_actions : Bool
  output_format : OutputFormat
  verbose : Bool
  deriving DecidableEq, Repr

/-- Whole-string variable interpolation (executor.rs
resolve_variable_in_string): an input that exactly names a variable is
replaced by that variable's string form. The Display renderings of
numeric variable values are not observed by any theorem here and are
modelled as plain decimal text. -/
def resolve_variable_in_string (input : String) (context : Context) : String :=
  match context.vars.lookup input with
  | some (.string s) => s
  | some (.path p) => p.render
  | some (.number n) => toString n
  | some (.size s) => toString s
  | some (.boolean b) => toString b
  | none => input

/-- Action dispatch (executor.rs execute_action): refuse unless
allow_actions or dry_run is set, then resolve the path and call the
provider. Process termination is an external provider per the spec (§2,
§6) and is passed in as kill_provider. -/
def execute_action (fs : FileSystem)
    (kill_provider : WhereClause → Bool → Except ArtaError ActionResult)
    (action : ActionCommand) (ctx : ExecutionContext) (context : Context) :
    Except ArtaError ActionResult × FileSystem :=
  if !ctx.allow_actions && !ctx.dry_run then
    (.error .actionsDisabled, fs)
  else
    match action with
    | .deleteFiles cmd =>
      let resolved := resolve_variable_in_string cmd.path context
      let path := context.resolve_path resolved
      delete_files fs path.render cmd.where_clause ctx.dry_run
    | .killProcess cmd =>
      (kill_provider cmd.where_clause ctx.dry_run, fs)

/-- Success classifier for action results. -/
def is_ok_result : Except ArtaError ActionResult → Bool
  | .ok _ => true
  | .error _ => false

/-- Security-class classifier for action results. -/
def is_security_error_result : Except ArtaError ActionResult → Bool
  | .error e => e.isSecurityClass
  | .ok _ => false

/-- C1 (amended): an action with allow_actions=false and dry_run=false is
refused with the ActionsDisabled policy error (the SecurityError class of
the spec's taxonomy) before the file system is touched; DELETE FILES on an
existing directory with dry_run=true and at most MAX_FILES_PER_OPERATION
matching files returns a listing with one Would-delete line per candidate
file and leaves the file system unchanged, and execute_action forwards
dry_run to delete_files. Above the ceiling even the dry run returns a
SecurityError and still deletes nothing (see
delete_files_dry_run_ceiling). -/
theorem execute_action_security (fs : FileSystem)
    (kp : WhereClause → Bool → Except ArtaError ActionResult)
    (action : ActionCommand) (ctx : ExecutionContext) (context : Context)
    (cmd : DeleteFilesCommand) (w : WhereClause) (path : String) :
    (ctx.allow_actions = false → ctx.dry_run = false →
      execute_action fs kp action ctx context =
        (.error .actionsDisabled, fs) ∧
      ArtaError.isSecurityClass .actionsDisabled = true) ∧
    (fs.pathExists (parsePath path) = true →
     fs.isDir (parsePath path) = true →
     (matched_entries fs (parsePath path) (some w)).length ≤
       MAX_FILES_PER_OPERATION →
     delete_files fs path (some w) true =
       (.ok { action_type := "DELETE FILES"
              affected_count :=
                (matched_entries fs (parsePath path) (some w)).length
              dry_run := true
              details := (matched_entries fs (parsePath path) (some w)).map
                would_delete_line }, fs)) ∧
    (ctx.dry_run = true →
      execute_action fs kp (.deleteFiles cmd) ctx context =
        delete_files fs
          (context.resolve_path
            (resolve_variable_in_string cmd.path context)).render
          cmd.where_clause true) := by
  refine ⟨fun ha hd => ?_, fun h1 h2 h3 => ?_, fun hd => ?_⟩
  · rw [execute_action.eq_def, ha, hd]
    exact ⟨rfl, rfl⟩
  · rw [delete_files]
    rw [if_neg (by rw [h1]; simp), if_neg (by rw [h2]; simp)]
    simp only [Option.isNone_some, Bool.false_eq_true, if_false]
    rw [if_neg (by omega)]
    simp
  · rw [execute_action.eq_def, hd]
    simp

/-- Concrete file system for the C1 witness: one directory /d holding one
3-byte file /d/a; canonicalization is the identity. -/
def fs_c1 : FileSystem :=
  ⟨[⟨true, ["d"]⟩], [(⟨true, ["d", "a"]⟩, 3)], fun p => some p⟩

/-- WHERE size > 0 filter. -/
def wc_size_gt0 : WhereClause :=
  ⟨[.mk ⟨"size", .greaterThan, .number 0⟩ none]⟩

/-- Policy with neither allow_actions nor dry_run. -/
def ctx_noact : ExecutionContext := ⟨false, false, .human, false⟩

/-- Policy with dry_run only. -/
def ctx_dry : ExecutionContext := ⟨true, false, .human, false⟩

/-- Root-only execution context with no variables. -/
def context_root : Context := ⟨[⟨true, []⟩], none, [], []⟩

/-- DELETE FILES FROM /d WHERE size > 0. -/
def cmd_c1 : DeleteFilesCommand := ⟨"/d", some wc_size_gt0⟩

/-- Stub process-termination provider (never consulted by the delete
theorems). -/
def kp_stub : WhereClause → Bool → Except ArtaError ActionResult :=
  fun _ _ => .error .ioError

/-- C1 witness: on fs_c1 the gate refuses with allow_actions=false and
dry_run=false, and the dry run returns the Would-delete listing with the
file system unchanged. -/
theorem execute_action_security_witness :
    ctx_noact.allow_actions = false ∧
    ctx_noact.dry_run = false ∧
    fs_c1.pathExists (parsePath "/d") = true ∧
    fs_c1.isDir (parsePath "/d") = true ∧
    (matched_entries fs_c1 (parsePath "/d") (some wc_size_gt0)).length ≤
      MAX_FILES_PER_OPERATION ∧
    ctx_dry.dry_run = true ∧
    (execute_action fs_c1 kp_stub (.deleteFiles cmd_c1) ctx_noact
        context_root = (.error .actionsDisabled, fs_c1) ∧
      ArtaError.isSecurityClass .actionsDisabled = true) ∧
    delete_files fs_c1 "/d" (some wc_size_gt0) true =
      (.ok { action_type := "DELETE FILES"
             affected_count :=
               (matched_entries fs_c1 (parsePath "/d") (some wc_size_gt0)).length
             dry_run := true
             details := (matched_entries fs_c1 (parsePath "/d")
               (some wc_size_gt0)).map would_delete_line }, fs_c1) ∧
    execute_action fs_c1 kp_stub (.deleteFiles cmd_c1) ctx_dry context_root =
      delete_files fs_c1
        (context_root.resolve_path
          (resolve_variable_in_string cmd_c1.path context_root)).render
        cmd_c1.where_clause true :=
  ⟨rfl, rfl, by decide, by decide, by decide, rfl,
    (execute_action_security fs_c1 kp_stub (.deleteFiles cmd_c1) ctx_noact
      context_root cmd_c1 wc_size_gt0 "/d").1 rfl rfl,
    (execute_action_security fs_c1 kp_stub (.deleteFiles cmd_c1) ctx_noact
      context_root cmd_c1 wc_size_gt0 "/d").2.1
      (by decide) (by decide) (by decide),
    (execute_action_security fs_c1 kp_stub (.deleteFiles cmd_c1) ctx_dry
      context_root cmd_c1 wc_size_gt0 "/d").2.2 rfl⟩

/-- Concrete file system for the C1 counterexample: directory /d with 101
nonempty files. -/
def fs_c1_big : FileSystem :=
  ⟨[⟨true, ["d"]⟩],
    (List.range 101).map (fun i => (⟨true, ["d", "f" ++ toString i]⟩, 1)),
    fun p => some p⟩

/-- C1 counterexample: with dry_run=true on an existing directory holding
101 files matching size > 0, DELETE FILES returns a SecurityError (the
match-count ceiling), not a listing of the candidate files; the file
system is still unchanged. The claim as stated, which promises a listing
for ANY existing directory under dry_run, is therefore false here. -/
theorem delete_files_dry_run_ceiling :
    is_ok_result (delete_files fs_c1_big "/d" (some wc_size_gt0) true).1 =
      false ∧
    is_security_error_result
      (delete_files fs_c1_big "/d" (some wc_size_gt0) true).1 = true ∧
    (delete_files fs_c1_big "/d" (some wc_size_gt0) true).2 = fs_c1_big :=
  ⟨by decide, by decide, rfl⟩

/-! ### Live-monitor change detection, from src/life/mod.rs -/

/-- Snapshot of a monitored resource (life/mod.rs MonitorState); the f32
payloads (battery percentage, cpu usage) are modelled as exact
rationals. -/
inductive MonitorState where
  | battery (percentage : ℚ) (charging : Bool)
  | memory (used total : ℕ)
  | cpu (usage : ℚ)
  | disk (used total : ℕ)
  | network (bytes_sent bytes_recv : ℕ)
  | processes (count : ℕ)
  deriving DecidableEq, Repr

/-- Material-change predicate (life/mod.rs MonitorState::has_changed). At
every call site (run_life_block, run_simple_monitor, LiveMonitor::start)
self is the CURRENT sample and other the PREVIOUS one, so u1 below is the
current used value. -/
def MonitorState.has_changed : MonitorState → MonitorState → Bool
  | .battery p1 c1, .battery p2 c2 => c1 != c2 || decide (1 ≤ |p1 - p2|)
  | .memory u1 _, .memory u2 _ =>
    decide (u1 / 100 < if u2 < u1 then u1 - u2 else u2 - u1)
  | .cpu u1, .cpu u2 => decide (1 ≤ |u1 - u2|)
  | .disk u1 _, .disk u2 _ =>
    decide (u1 / 100 < if u2 < u1 then u1 - u2 else u2 - u1)
  | .network s1 r1, .network s2 r2 => s1 != s2 || r1 != r2
  | .processes c1, .processes c2 => c1 != c2
  | _, _ => true

/-- Spec-side predicate, written from the spec sentence for §4.5: the
used-byte delta is strictly greater than one percent of the PREVIOUS
sample's used value, in exact arithmetic. Stated separately so it can be
compared against the code's has_changed. -/
def spec_mem_disk_changed (prevUsed curUsed : ℕ) : Prop :=
  (prevUsed : ℚ) / 100 < |(curUsed : ℚ) - (prevUsed : ℚ)|

/-- C5 (amended): for memory and disk snapshot pairs, the material-change
predicate holds exactly when the used-byte delta strictly exceeds one
percent of the CURRENT sample's used value rounded down (u64 integer
division), not one percent of the previous sample's used value as the
claim states (see mem_changed_uses_current_used). -/
theorem has_changed_mem_disk_iff (uc tc up tp : ℕ) :
    (MonitorState.has_changed (.memory uc tc) (.memory up tp) = true ↔
      uc / 100 < max uc up - min uc up) ∧
    (MonitorState.has_changed (.disk uc tc) (.disk up tp) = true ↔
      uc / 100 < max uc up - min uc up) := by
  have key : ∀ a b : ℕ,
      (decide (a / 100 < if b < a then a - b else b - a) = true ↔
        a / 100 < max a b - min a b) := by
    intro a b
    rw [decide_eq_true_iff]
    rcases Nat.lt_or_ge b a with h | h
    · rw [if_pos h, Nat.max_eq_left h.le, Nat.min_eq_right h.le]
    · rw [if_neg (by omega), Nat.max_eq_right h, Nat.min_eq_left h]
  exact ⟨key uc up, key uc up⟩

/-- C5 counterexample: current used 9900, previous used 10000. The code
flags a material change (delta 100 exceeds 9900 / 100 = 99), but the
claimed predicate (delta strictly above one percent of the PREVIOUS used
value, 100) does not hold; so the claim mis-states both the base sample
and the rounding. -/
theorem mem_changed_uses_current_used :
    MonitorState.has_changed (.memory 9900 0) (.memory 10000 0) = true ∧
    ¬ spec_mem_disk_changed 10000 9900 := by
  constructor
  · decide
  · rw [spec_mem_disk_changed]
    intro h
    push_cast at h
    rw [show |(9900 : ℚ) - 10000| = 100 from by
      rw [abs_sub_comm, abs_of_nonneg (by norm_num : (0 : ℚ) ≤ 10000 - 9900)]
      norm_num] at h
    norm_num at h

/-! ### Container registry, from src/container/manager.rs and
src/container/container.rs -/

/-- Fresh context for a new container (context/mod.rs Context::new /
default); the process start directory is passed explicitly since
env::current_dir is ambient state. -/
def Context.new (cwd : Path) : Context := ⟨[cwd], none, [], []⟩

/-- Name of the always-present container (manager.rs DEFAULT_CONTAINER). -/
def DEFAULT_CONTAINER : String := "default"

/-- Container (container.rs): a name, its own context, and the two
permission flags; the creation timestamp carries no modelled
information and is omitted. -/
structure Container where
  name : String
  context : Context
  allow_actions : Bool
  readonly : Bool
  deriving DecidableEq, Repr

/-- Container construction (container.rs Container::new). -/
def Container.new (name : String) (options : ContainerOptions) (cwd : Path) :
    Container :=
  ⟨name, Context.new cwd, options.allow_actions, options.readonly⟩

/-- Default-option container construction (container.rs new_default). -/
def Container.new_default (name : String) (cwd : Path) : Container :=
  Container.new name ContainerOptions.default cwd

/-- Container registry (manager.rs ContainerManager): the name-to-container
map as an association list plus the active name. -/
structure ContainerManager where
  containers : List (String × Container)
  active : String

/-- Fresh manager holding only the default container (manager.rs new). -/
def ContainerManager.new (cwd : Path) : ContainerManager :=
  ⟨[(DEFAULT_CONTAINER, Container.new_default DEFAULT_CONTAINER cwd)],
    DEFAULT_CONTAINER⟩

/-- Key-presence test (HashMap contains_key on the modelled map). -/
def ContainerManager.contains_key (m : ContainerManager) (name : String) :
    Bool :=
  m.containers.any (fun kv => kv.1 == name)

/-- Container creation (manager.rs create): fails if the name exists, else
inserts. The source returns a borrow of the new container; the model
returns unit plus the updated registry, with state returned unchanged on
every error. -/
def ContainerManager.create (m : ContainerManager) (name : String)
    (options : ContainerOptions) (cwd : Path) :
    Except ArtaError Unit × ContainerManager :=
  if m.contains_key name then
    (.error (.executionError ("Container \x27" ++ name ++ "\x27 already exists")), m)
  else
    (.ok (), { m with
      containers := (name, Container.new name options cwd) :: m.containers })

/-- Active-container switch (manager.rs switch): fails if absent. -/
def ContainerManager.switch (m : ContainerManager) (name : String) :
    Except ArtaError Unit × ContainerManager :=
  if !m.contains_key name then
    (.error (.executionError ("Container \x27" ++ name ++ "\x27 does not exist")), m)
  else
    (.ok (), { m with active := name })

/-- Container destruction (manager.rs destroy): refuses the default
container, fails on absent names, resets the active name to default when
the destroyed container was active, then removes the entry. -/
def ContainerManager.destroy (m : ContainerManager) (name : String) :
    Except ArtaError Unit × ContainerManager :=
  if name == DEFAULT_CONTAINER then
    (.error (.executionError "Cannot destroy the default container"), m)
  else if !m.contains_key name then
    (.error (.executionError ("Container \x27" ++ name ++ "\x27 does not exist")), m)
  else
    let m' := if m.active == name then { m with active := DEFAULT_CONTAINER }
      else m
    (.ok (), { m' with
      containers := m'.containers.filter (fun kv => kv.1 != name) })

/-- Managers reachable from a fresh one by any sequence of create, switch
and destroy calls; failed calls return the registry unchanged by
construction, so every call's post-state is reachable. -/
inductive Reachable (cwd : Path) : ContainerManager → Prop where
  | new : Reachable cwd (ContainerManager.new cwd)
  | create (m : ContainerManager) (name : String) (options : ContainerOptions)
      (cwd' : Path) : Reachable cwd m →
      Reachable cwd (m.create name options cwd').2
  | switch (m : ContainerManager) (name : String) : Reachable cwd m →
      Reachable cwd (m.switch name).2
  | destroy (m : ContainerManager) (name : String) : Reachable cwd m →
      Reachable cwd (m.destroy name).2

/-- C7: every reachable registry contains a container named default, and
destroying default is always an Error that leaves the registry
unchanged. -/
theorem default_container_invariant (cwd : Path) (m : ContainerManager)
    (h : Reachable cwd m) :
    m.contains_key "default" = true ∧
    m.destroy "default" =
      (.error (.executionError "Cannot destroy the default container"), m) := by
  refine ⟨?_, rfl⟩
  induction h with
  | new => rfl
  | create m name options cwd' hm ih =>
    rw [ContainerManager.create]
    by_cases hc : m.contains_key name = true
    · rw [if_pos hc]; exact ih
    · rw [if_neg hc]
      simp only [ContainerManager.contains_key, List.any_cons] at ih ⊢
      rw [ih]
      simp
  | switch m name hm ih =>
    rw [ContainerManager.switch]
    by_cases hc : (!m.contains_key name) = true
    · rw [if_pos hc]; exact ih
    · rw [if_neg hc]; exact ih
  | destroy m name hm ih =>
    rw [ContainerManager.destroy]
    by_cases h0 : (name == DEFAULT_CONTAINER) = true
    · rw [if_pos h0]; exact ih
    · rw [if_neg h0]
      by_cases hc : (!m.contains_key name) = true
      · rw [if_pos hc]; exact ih
      · rw [if_neg hc]
        have hne : name ≠ "default" := by
          intro hna
          rw [hna] at h0
          exact h0 rfl
        simp only [ContainerManager.contains_key, List.any_eq_true] at ih ⊢
        obtain ⟨kv, hkvmem, hkv⟩ := ih
        refine ⟨kv, ?_, hkv⟩
        have hkv' : kv.1 = "default" := beq_iff_eq.mp hkv
        have hmem2 : kv ∈ m.containers.filter (fun kv => kv.1 != name) := by
          rw [List.mem_filter]
          refine ⟨hkvmem, ?_⟩
          rw [hkv', bne_iff_ne]
          exact fun hh => hne hh.symm
        by_cases ha : (m.active == name) = true
        · rw [if_pos ha]; exact hmem2
        · rw [if_neg ha]; exact hmem2

/-- C7 witness at the registry reached by creating a container x in a
fresh registry rooted at /. -/
theorem default_container_invariant_witness :
    (((ContainerManager.new ⟨true, []⟩).create "x" ContainerOptions.default
        ⟨true, []⟩).2).contains_key "default" = true ∧
    (((ContainerManager.new ⟨true, []⟩).create "x" ContainerOptions.default
        ⟨true, []⟩).2).destroy "default" =
      (.error (.executionError "Cannot destroy the default container"),
        ((ContainerManager.new ⟨true, []⟩).create "x"
          ContainerOptions.default ⟨true, []⟩).2) :=
  default_container_invariant ⟨true, []⟩ _
    (Reachable.create _ "x" ContainerOptions.default ⟨true, []⟩
      Reachable.new)

/-! ### Interpreter results and the container-command dispatch, from
src/engine/executor.rs -/

/-- Container summary row (executor.rs ContainerInfo). -/
structure ContainerInfo where
  name : String
  allow_actions : Bool
  readonly : Bool
  is_active : Bool
  deriving DecidableEq, Repr

/-- Container-operation result (executor.rs ContainerResultInfo). -/
structure ContainerResultInfo where
  operation : String
  container_name : Option String
  containers : Option (List ContainerInfo)
  message : String
  deriving DecidableEq, Repr

/-- Execution result payload (executor.rs ResultData). The variants
carrying records produced by the out-of-scope query providers (Cpu,
Memory, Disk, Network, System, Battery, Processes, Files, Content,
ContextInfo, Explanation, Multiple) are never constructed by a function
modelled in this file and are omitted from the model. -/
inductive ResultData where
  | actionResult (r : ActionResult)
  | message (msg : String)
  | containerResult (info : ContainerResultInfo)
  | empty
  deriving DecidableEq, Repr

/-- Execution result (executor.rs ExecutionResult). -/
structure ExecutionResult where
  data : ResultData
  message : Option String
  deriving DecidableEq, Repr

/-- View of ast.rs ContainerCommand; the Command embedding inlines the
five container variants (Lean nested inductives cannot route recursion
through a separate struct), and this type restores the argument shape of
execute_container_cmd. The export variant is named exportCmd because
export is a Lean keyword. -/
inductive ContainerCommandView where
  | create (name : String) (options : ContainerOptions) (body : List Command)
  | switch (name : String)
  | list
  | destroy (name : String)
  | exportCmd (e : ExportContainer)

/-- Sequential execution of a nested command body with error propagation
(the for-loop over create.body in executor.rs execute_container_cmd). The
statement executor is passed in as exec, standing for
execute_command_with_context, whose full dispatch reaches the out-of-scope
providers; the pair-shaped return models the &mut Context argument. -/
def run_body
    (exec : Command → ExecutionContext → Context →
      Except ArtaError ExecutionResult × Context)
    (ctx : ExecutionContext) :
    List Command → Context → Except ArtaError (List ExecutionResult) × Context
  | [], context => (.ok [], context)
  | cmd :: rest, context =>
    match exec cmd ctx context with
    | (.error e, context') => (.error e, context')
    | (.ok r, context') =>
      match run_body exec ctx rest context' with
      | (.error e, contextB) => (.error e, contextB)
      | (.ok rs, contextB) => (.ok (r :: rs), contextB)

/-- Interpreter container dispatch (executor.rs execute_container_cmd).
The source does NOT consult the Container Registry: Create runs the body
against the caller's context and reports success, Switch and Export
unconditionally report success, List returns a hardcoded default-only
row, and Destroy checks only the name default inline (its own comment
says full container isolation will be added with the container
module). -/
def execute_container_cmd
    (exec : Command → ExecutionContext → Context →
      Except ArtaError ExecutionResult × Context)
    (cmd : ContainerCommandView) (ctx : ExecutionContext)
    (context : Context) : Except ArtaError ExecutionResult × Context :=
  match cmd with
  | .create name _options body =>
    match run_body exec ctx body context with
    | (.error e, context') => (.error e, context')
    | (.ok _results, context') =>
      (.ok ⟨.containerResult
        { operation := "CREATE"
          container_name := some name
          containers := none
          message := "Container \x27" ++ name ++ "\x27 created with " ++
            toString body.length ++ " initialization commands" }, none⟩,
        context')
  | .switch name =>
    (.ok ⟨.containerResult
      { operation := "SWITCH"
        container_name := some name
        containers := none
        message := "Switched to container \x27" ++ name ++ "\x27" }, none⟩,
      context)
  | .list =>
    (.ok ⟨.containerResult
      { operation := "LIST"
        container_name := none
        containers := some [{ name := "default"
                              allow_actions := ctx.allow_actions
                              readonly := false
                              is_active := true }]
        message := "Container list" }, none⟩,
      context)
  | .destroy name =>
    if name == "default" then
      (.error (.executionError "Cannot destroy the default container"),
        context)
    else
      (.ok ⟨.containerResult
        { operation := "DESTROY"
          container_name := some name
          containers := none
          message := "Container \x27" ++ name ++ "\x27 destroyed" }, none⟩,
        context)
  | .exportCmd e =>
    (.ok ⟨.containerResult
      { operation := "EXPORT"
        container_name := some e.name
        containers := none
        message := "Container \x27" ++ e.name ++ "\x27 exported to \x27" ++
          e.path ++ "\x27" }, none⟩,
      context)

/-- C8: the interpreter's container dispatch does not delegate to the
Container Registry. A fresh registry has no container named nonexistent
and its switch correctly errs on it, yet the interpreter's Switch
succeeds with a message for that same name, leaving the context
untouched; the registry is never consulted (execute_container_cmd takes
no registry argument at all). This evaluates the code at the failing
input of the code_bug verdict. -/
theorem container_switch_stub_divergence (cwd : Path)
    (exec : Command → ExecutionContext → Context →
      Except ArtaError ExecutionResult × Context)
    (ctx : ExecutionContext) (context : Context) :
    (ContainerManager.new cwd).contains_key "nonexistent" = false ∧
    ((ContainerManager.new cwd).switch "nonexistent").1 =
      .error (.executionError "Container \x27nonexistent\x27 does not exist") ∧
    execute_container_cmd exec (.switch "nonexistent") ctx context =
      (.ok ⟨.containerResult
        { operation := "SWITCH"
          container_name := some "nonexistent"
          containers := none
          message := "Switched to container \x27nonexistent\x27" }, none⟩,
        context) :=
  ⟨rfl, rfl, rfl⟩

/-! ### Script runner, from src/script/runner.rs -/

/-- Rendered error text (error.rs Display attributes via thiserror); the
io::Error payload of IoError is omitted, as in the error model. -/
def ArtaError.display : ArtaError → String
  | .parseError m => "Parse error: " ++ m
  | .executionError m => "Execution error: " ++ m
  | .securityError m => "Security error: " ++ m
  | .ioError => "IO error"
  | .actionsDisabled =>
    "Actions not enabled. Use --allow-actions flag to enable system modifications"
  | .invalidTarget m => "Invalid query target: " ++ m
  | .invalidField m => "Invalid field: " ++ m
  | .pathNotFound p => "Path not found: " ++ p
  | .permissionDenied m => "Permission denied: " ++ m

/-- Script execution outcome (runner.rs ScriptResult). -/
structure ScriptResult where
  results : List ExecutionResult
  statements_executed : ℕ
  success : Bool
  error : Option String
  deriving DecidableEq, Repr

/-- Script execution (runner.rs ScriptRunner::run_script): statements run
in order against the threaded context; the first Error stops the run and
is reported as text together with the statement count and the results
collected so far. The statement executor exec stands for
execute_command_with_context, as in run_body. -/
def run_script
    (exec : Command → ExecutionContext → Context →
      Except ArtaError ExecutionResult × Context)
    (ctx : ExecutionContext) :
    List Command → Context → ScriptResult × Context
  | [], context =>
    ({ results := [], statements_executed := 0, success := true
       error := none }, context)
  | cmd :: rest, context =>
    match exec cmd ctx context with
    | (.error e, context') =>
      ({ results := [], statements_executed := 0, success := false
         error := some e.display }, context')
    | (.ok r, context') =>
      match run_script exec ctx rest context' with
      | (sr, contextB) =>
        ({ results := r :: sr.results
           statements_executed := sr.statements_executed + 1
           success := sr.success
           error := sr.error }, contextB)

/-- C9: a script run executes statements in order and halts at the first
statement whose execution errs: when every statement of a prefix succeeds
and the next statement fails, the script result collects exactly the
prefix results, reports the prefix length as the completed-statement
count, success false and the failing error's text, and the suffix after
the failing statement is never executed (the outcome is the same as if it
were absent). -/
theorem run_script_halts_at_first_error
    (exec : Command → ExecutionContext → Context →
      Except ArtaError ExecutionResult × Context)
    (ctx : ExecutionContext) (pre : List Command) (s : Command)
    (suf : List Command) (context context₁ context₂ : Context)
    (rs : List ExecutionResult) (e : ArtaError)
    (hpre : run_script exec ctx pre context =
      ({ results := rs, statements_executed := pre.length, success := true
         error := none }, context₁))
    (hfail : exec s ctx context₁ = (.error e, context₂)) :
    run_script exec ctx (pre ++ s :: suf) context =
      ({ results := rs, statements_executed := pre.length, success := false
         error := some e.display }, context₂) ∧
    run_script exec ctx (pre ++ s :: suf) context =
      run_script exec ctx (pre ++ [s]) context := by
  induction pre generalizing context rs with
  | nil =>
    rw [run_script] at hpre
    rw [Prod.mk.injEq, ScriptResult.mk.injEq] at hpre
    obtain ⟨⟨hrs, _, _, _⟩, hc⟩ := hpre
    subst hc
    constructor
    · simp only [List.nil_append]
      rw [run_script, hfail]
      dsimp only
      simp only [List.length_nil]
      rw [← hrs]
    · simp only [List.nil_append]
      rw [run_script, hfail]
      rw [run_script, hfail]
  | cons p ps ih =>
    rw [run_script] at hpre
    cases hexec : exec p ctx context with
    | mk res context' =>
    rw [hexec] at hpre
    dsimp only at hpre
    cases res with
    | error e' =>
      exfalso
      dsimp only at hpre
      rw [Prod.mk.injEq, ScriptResult.mk.injEq] at hpre
      exact Bool.false_ne_true hpre.1.2.2.1
    | ok r =>
      dsimp only at hpre
      cases hrest : run_script exec ctx ps context' with
      | mk sr contextB =>
      rw [hrest] at hpre
      dsimp only at hpre
      rw [Prod.mk.injEq, ScriptResult.mk.injEq] at hpre
      obtain ⟨⟨hrs, hcnt, hsucc, herr⟩, hc⟩ := hpre
      subst hc
      obtain ⟨a, b, c, d⟩ := sr
      dsimp only at hrs hcnt hsucc herr
      subst hsucc
      subst herr
      rw [List.length_cons] at hcnt
      have hb : b = ps.length := by omega
      subst hb
      obtain ⟨ih1, ih2⟩ := ih context' a hrest
      constructor
      · simp only [List.cons_append]
        rw [run_script, hexec]
        dsimp only
        rw [ih1]
        dsimp only
        rw [Prod.mk.injEq, ScriptResult.mk.injEq]
        exact ⟨⟨hrs, by rw [List.length_cons], rfl, rfl⟩, rfl⟩
      · simp only [List.cons_append]
        rw [run_script, hexec]
        dsimp only
        rw [ih2]
        rw [run_script, hexec]

/-- Concrete statement executor for the C9 witness: PRINT statements
succeed with an empty result, everything else fails. -/
def exec_print_only : Command → ExecutionContext → Context →
    Except ArtaError ExecutionResult × Context :=
  fun cmd _ context =>
    match cmd with
    | .print _ => (.ok ⟨.empty, none⟩, context)
    | _ => (.error (.executionError "boom"), context)

/-- C9 witness: a successful PRINT followed by a failing statement and one
more PRINT. The run reports one completed statement, the error text, and
never reaches the trailing statement. -/
theorem run_script_halts_at_first_error_witness :
    run_script exec_print_only ctx_noact [Command.print ⟨[]⟩]
      context_root =
      ({ results := [⟨.empty, none⟩], statements_executed := 1
         success := true, error := none }, context_root) ∧
    exec_print_only Command.containerList ctx_noact context_root =
      (.error (.executionError "boom"), context_root) ∧
    (run_script exec_print_only ctx_noact
        ([Command.print ⟨[]⟩] ++
          Command.containerList :: [Command.print ⟨[]⟩]) context_root =
      ({ results := [⟨.empty, none⟩], statements_executed := 1
         success := false
         error := some (ArtaError.executionError "boom").display },
        context_root) ∧
      run_script exec_print_only ctx_noact
        ([Command.print ⟨[]⟩] ++
          Command.containerList :: [Command.print ⟨[]⟩]) context_root =
      run_script exec_print_only ctx_noact
        ([Command.print ⟨[]⟩] ++ [Command.containerList]) context_root) :=
  ⟨rfl, rfl,
    run_script_halts_at_first_error exec_print_only ctx_noact
      [Command.print ⟨[]⟩] Command.containerList [Command.print ⟨[]⟩]
      context_root context_root context_root [⟨.empty, none⟩]
      (ArtaError.executionError "boom") rfl rfl⟩

end Arta
